import Mathlib

/-!
Verification of the feed-aggregation backend (src/main.py).

The development shallowly embeds the program:
- XML documents are modeled after the ElementTree view the code works on
  (tag, attributes, optional text, children); namespaced Atom tags use the
  expanded Clark form used by ElementTree.
- The network fetch plus XML parse of fetch_rss_feed either yields a parsed
  root element or fails; this is modeled by an Option XmlElem input.
- parsedDateIso models the composite
  try: parsedate_to_datetime(s).isoformat() except: None
  used by the code, transcribed from email._parseaddr._parsedate_tz and the
  datetime constructor/isoformat of CPython.
- Exceptions that can escape the parsing loop (the AttributeError raised by
  title_el.text.strip() when an Atom title element has no text) are modeled
  with Except; fetch_rss_feed maps any such error to the empty list, exactly
  as the enclosing try/except does.
-/

namespace FeedAgg

/-- XML element as seen through xml.etree.ElementTree: a tag, an attribute
list, optional text content (ElementTree yields None for an element without
text), and the list of child elements in document order. -/
structure XmlElem where
  tag : String
  attrs : List (String × String)
  text : Option String
  children : List XmlElem

/-- Model of Element.find with a plain child-tag path: first direct child
with the given tag, or None. -/
def findChild (e : XmlElem) (t : String) : Option XmlElem :=
  e.children.find? (fun c => c.tag == t)

/-- Model of Element.findall with a plain child-tag path: all direct children
with the given tag, in document order. -/
def findAll (e : XmlElem) (t : String) : List XmlElem :=
  e.children.filter (fun c => c.tag == t)

/-- Model of Element.findtext: None when no child matches, otherwise the text
of the first match, with an empty string substituted for missing text. -/
def findtext (e : XmlElem) (t : String) : Option String :=
  match findChild e t with
  | none => none
  | some c => some (c.text.getD "")

/-- Model of Element.get on attributes: None when the attribute is absent. -/
def getAttr (e : XmlElem) (k : String) : Option String :=
  (e.attrs.find? (fun p => p.fst == k)).map (fun p => p.snd)

/-- Expanded (Clark) form of an Atom-namespaced tag, the form ElementTree
uses after parsing: \x7bhttp://www.w3.org/2005/Atom\x7dlocal. -/
def atomTag (l : String) : String :=
  "\x7bhttp://www.w3.org/2005/Atom\x7d" ++ l

/-! ### Model of email.utils.parsedate_to_datetime and datetime.isoformat -/

/-- Month-name table of email._parseaddr. -/
def monthNames : List String :=
  ["jan", "feb", "mar", "apr", "may", "jun", "jul",
   "aug", "sep", "oct", "nov", "dec",
   "january", "february", "march", "april", "may", "june", "july",
   "august", "september", "october", "november", "december"]

/-- Day-name table of email._parseaddr. -/
def dayNames : List String := ["mon", "tue", "wed", "thu", "fri", "sat", "sun"]

/-- Timezone table of email._parseaddr. -/
def timezoneTable : List (String × Int) :=
  [("UT", 0), ("UTC", 0), ("GMT", 0), ("Z", 0),
   ("AST", -400), ("ADT", -300), ("EST", -500), ("EDT", -400),
   ("CST", -600), ("CDT", -500), ("MST", -700), ("MDT", -600),
   ("PST", -800), ("PDT", -700)]

/-- Lowercasing character by character, modeling str.lower() on the ASCII
data these routines handle. -/
def lowerStr (s : String) : String := String.mk (s.data.map Char.toLower)

/-- Uppercasing character by character, modeling str.upper(). -/
def upperStr (s : String) : String := String.mk (s.data.map Char.toUpper)

/-- Whether the last character equals c, modeling s.endswith for a
one-character suffix. -/
def endsWithCh (s : String) (c : Char) : Bool :=
  match s.data.getLast? with
  | some d => d = c
  | none => false

/-- Whether the first character equals c, modeling s.startswith for a
one-character suffix. -/
def startsWithCh (s : String) (c : Char) : Bool :=
  match s.data with
  | d :: _ => d = c
  | [] => false

/-- Python s[:-1]: drop the final character. -/
def dropRight1 (s : String) : String := String.mk s.data.dropLast

/-- Whether the character occurs in the string, modeling the in operator. -/
def containsCh (s : String) (c : Char) : Bool := s.data.contains c

/-- Surrounding-whitespace removal, modeling str.strip() with no
argument. -/
def pyStrip (s : String) : String :=
  String.mk (((s.data.dropWhile Char.isWhitespace).reverse.dropWhile
    Char.isWhitespace).reverse)

/-- Accumulator pass behind pySplitWS. -/
def splitWSAux : List Char → List Char → List (List Char)
  | [], acc => if acc = [] then [] else [acc.reverse]
  | c :: cs, acc =>
    if c.isWhitespace then
      if acc = [] then splitWSAux cs [] else acc.reverse :: splitWSAux cs []
    else splitWSAux cs (c :: acc)

/-- Python str.split() with no argument: split on whitespace runs, dropping
empty pieces. -/
def pySplitWS (s : String) : List String :=
  (splitWSAux s.data []).map String.mk

/-- Accumulator pass behind splitCh. -/
def splitChAux (sep : Char) : List Char → List Char → List (List Char)
  | [], acc => [acc.reverse]
  | c :: cs, acc =>
    if c = sep then acc.reverse :: splitChAux sep cs []
    else splitChAux sep cs (c :: acc)

/-- Python str.split(sep) for a one-character separator: empty pieces are
kept, and the empty string yields one empty piece. -/
def splitCh (s : String) (sep : Char) : List String :=
  (splitChAux sep s.data []).map String.mk

/-- Python str.find for a single character: index of the first occurrence,
or -1. -/
def pyFindCh (s : String) (c : Char) : Int :=
  match s.data.findIdx? (fun x => x = c) with
  | some i => (i : Int)
  | none => -1

/-- Python slice s[:n] by code points. -/
def strTake (s : String) (n : Nat) : String := String.mk (s.data.take n)

/-- Python slice s[n:] by code points. -/
def strDrop (s : String) (n : Nat) : String := String.mk (s.data.drop n)

/-- The substring after the last comma, modeling data[0][i+1:] with
i = data[0].rfind(",") when a comma is present. -/
def afterLastComma (s : String) : String :=
  (splitCh s ',').getLastD s

/-- Python int(str): optional surrounding whitespace, an optional sign, then
a nonempty digit string; None models ValueError. -/
def pyInt (s : String) : Option Int :=
  let cs := ((s.data.dropWhile Char.isWhitespace).reverse.dropWhile
    Char.isWhitespace).reverse
  let signed : Int × List Char :=
    match cs with
    | '-' :: rest => (-1, rest)
    | '+' :: rest => (1, rest)
    | _ => (1, cs)
  if signed.snd ≠ [] ∧ signed.snd.all Char.isDigit then
    some (signed.fst *
      (Int.ofNat (signed.snd.foldl (fun acc c => acc * 10 + (c.toNat - 48)) 0)))
  else none

/-- Result of a successful email._parseaddr._parsedate_tz run: calendar
fields plus the timezone offset in seconds (None when the timezone was
unknown or written as -0000). -/
structure ParsedDate where
  yy : Int
  mm : Int
  dd : Int
  thh : Int
  tmm : Int
  tss : Int
  tzoffset : Option Int

/-- Transcription of email._parseaddr._parsedate_tz (CPython 3.11). Any path
on which CPython returns None or raises inside the routine yields none,
matching the callers in src/main.py that wrap the call in try/except. -/
def parsedate_tz (data : String) : Option ParsedDate :=
  if data = "" then none else
  let toks0 := pySplitWS data
  match toks0 with
  | [] => none
  | t0 :: rest0 =>
    let toks1 :=
      if endsWithCh t0 ',' ∨ dayNames.contains (lowerStr t0) then rest0
      else if containsCh t0 ',' then afterLastComma t0 :: rest0
      else t0 :: rest0
    let toks2 :=
      if toks1.length = 3 then
        match toks1 with
        | u0 :: urest =>
          let stuff := splitCh u0 '-'
          if stuff.length = 3 then stuff ++ urest else toks1
        | [] => toks1
      else toks1
    let toks3 :=
      if h4 : toks2.length = 4 then
        let s := toks2.getLast (by intro hnil; rw [hnil] at h4; simp at h4)
        let i := pyFindCh s '+'
        let i := if i = -1 then pyFindCh s '-' else i
        if i > 0 then toks2.dropLast ++ [strTake s i.toNat, strDrop s i.toNat]
        else toks2 ++ [""]
      else toks2
    if toks3.length < 5 then none else
    match toks3 with
    | dd0 :: mm0 :: yy0 :: tm0 :: tz0 :: _ =>
      if dd0 = "" ∨ mm0 = "" ∨ yy0 = "" then none else
      let mmL := lowerStr mm0
      let dm : Option (String × String) :=
        if monthNames.contains mmL then some (dd0, mmL)
        else if monthNames.contains (lowerStr dd0) then some (mmL, lowerStr dd0)
        else none
      match dm with
      | none => none
      | some (dd1, mm1) =>
        let mmIdx : Int := Int.ofNat (monthNames.indexOf mm1) + 1
        let mmN : Int := if mmIdx > 12 then mmIdx - 12 else mmIdx
        let dd2 := if endsWithCh dd1 ',' then dropRight1 dd1 else dd1
        let (yy1, tm1) := if pyFindCh yy0 ':' > 0 then (tm0, yy0) else (yy0, tm0)
        let yyStep : Option String :=
          if endsWithCh yy1 ',' then
            let y2 := dropRight1 yy1
            if y2 = "" then none else some y2
          else some yy1
        match yyStep with
        | none => none
        | some yy2 =>
          if yy2 = "" then none else
          let headDigit := match yy2.data with
            | c :: _ => c.isDigit
            | [] => false
          let (yy3, tz1) := if headDigit then (yy2, tz0) else (tz0, yy2)
          let tm2 := if endsWithCh tm1 ',' then dropRight1 tm1 else tm1
          let tparts := splitCh tm2 ':'
          let hms : Option (String × String × String) :=
            match tparts with
            | [a, b] => some (a, b, "0")
            | [a, b, c] => some (a, b, c)
            | [a] =>
              if containsCh a '.' then
                match splitCh a '.' with
                | [x, y] => some (x, y, "0")
                | [x, y, z] => some (x, y, z)
                | _ => none
              else none
            | _ => none
          match hms with
          | none => none
          | some (ths, tms, tsss) =>
            match pyInt yy3, pyInt dd2, pyInt ths, pyInt tms, pyInt tsss with
            | some yyA, some ddA, some thhA, some tmmA, some tssA =>
              let yyB := if yyA < 100 then
                  (if yyA > 68 then yyA + 1900 else yyA + 2000)
                else yyA
              let tzU := upperStr tz1
              let tzRaw : Option Int :=
                match timezoneTable.lookup tzU with
                | some v => some v
                | none =>
                  match pyInt tzU with
                  | some v => if v = 0 ∧ startsWithCh tzU '-' then none else some v
                  | none => none
              let tzSec : Option Int :=
                match tzRaw with
                | some v =>
                  if v ≠ 0 then
                    let a := if v < 0 then -v else v
                    let sgn : Int := if v < 0 then -1 else 1
                    some (sgn * ((a / 100) * 3600 + (a % 100) * 60))
                  else some 0
                | none => none
              some { yy := yyB, mm := mmN, dd := ddA,
                     thh := thhA, tmm := tmmA, tss := tssA, tzoffset := tzSec }
            | _, _, _, _, _ => none
    | _ => none

/-- Leap-year rule of the Gregorian calendar, as in the datetime module. -/
def isLeap (y : Int) : Bool := y % 4 == 0 && (y % 100 != 0 || y % 400 == 0)

/-- Days in a month, as validated by the datetime constructor. -/
def daysInMonth (y m : Int) : Int :=
  if m = 2 then (if isLeap y then 29 else 28)
  else if m = 4 ∨ m = 6 ∨ m = 9 ∨ m = 11 then 30
  else 31

/-- Decimal rendering of a nonnegative integer zero-padded to a width. -/
def padNum (n : Int) (w : Nat) : String :=
  let s := toString n.natAbs
  String.mk (List.replicate (w - s.length) '0') ++ s

/-- Validation performed by the datetime and timezone constructors, followed
by datetime.isoformat rendering; none models the ValueError paths, which the
calling code turns into an absent timestamp. -/
def pyDatetimeIso (p : ParsedDate) : Option String :=
  if 1 ≤ p.yy ∧ p.yy ≤ 9999 ∧ 1 ≤ p.mm ∧ p.mm ≤ 12 ∧
     1 ≤ p.dd ∧ p.dd ≤ daysInMonth p.yy p.mm ∧
     0 ≤ p.thh ∧ p.thh ≤ 23 ∧ 0 ≤ p.tmm ∧ p.tmm ≤ 59 ∧ 0 ≤ p.tss ∧ p.tss ≤ 59 then
    let base := padNum p.yy 4 ++ "-" ++ padNum p.mm 2 ++ "-" ++ padNum p.dd 2 ++ "T" ++
                padNum p.thh 2 ++ ":" ++ padNum p.tmm 2 ++ ":" ++ padNum p.tss 2
    match p.tzoffset with
    | none => some base
    | some o =>
      if o.natAbs < 86400 then
        let sgn := if o < 0 then "-" else "+"
        let a : Int := if o < 0 then -o else o
        let tail := if a % 60 = 0 then "" else ":" ++ padNum (a % 60) 2
        some (base ++ sgn ++ padNum (a / 3600) 2 ++ ":" ++ padNum ((a % 3600) / 60) 2 ++ tail)
      else none
  else none

/-- Composite model of
try: parsedate_to_datetime(s).isoformat() except: None
for a nonempty date string, as used on both parse paths of src/main.py. -/
def parsedDateIso (s : String) : Option String :=
  (parsedate_tz s).bind pyDatetimeIso

/-! ### The feed parser and aggregator of src/main.py -/

/-- One aggregated item, mirroring the dict built by fetch_rss_feed. The
link and published values may be None on the Atom path (href absent, or an
updated element without text), hence Option. -/
structure FeedItem where
  title : String
  link : Option String
  published : Option String
  published_ts : Option String
  source : String
deriving DecidableEq, Repr

/-- Model of a single RSS channel item (src/main.py lines 38-51): title,
link and pubDate are read with findtext, defaulted to the empty string and
stripped; the timestamp is derived when pubDate is nonempty. -/
def parseRssItem (url : String) (item : XmlElem) : FeedItem :=
  let title := pyStrip ((findtext item "title").getD "")
  let link := pyStrip ((findtext item "link").getD "")
  let pub := pyStrip ((findtext item "pubDate").getD "")
  let dt := if pub = "" then none else parsedDateIso pub
  { title := title, link := some link, published := some pub,
    published_ts := dt, source := url }

/-- Model of a single Atom entry (src/main.py lines 58-73). The title field
is produced by title_el.text.strip() when the title element exists; when
that element exists without text this is None.strip(), an AttributeError,
modeled as Except.error. -/
def parseAtomEntry (url : String) (entry : XmlElem) : Except Unit FeedItem :=
  let link_el := findChild entry (atomTag "link")
  let updated_el := findChild entry (atomTag "updated")
  let link : Option String :=
    match link_el with
    | some el => getAttr el "href"
    | none => some ""
  let pub : Option String :=
    match updated_el with
    | some el => el.text
    | none => some ""
  let dt : Option String :=
    match pub with
    | some p => if p = "" then none else parsedDateIso p
    | none => none
  match findChild entry (atomTag "title") with
  | some tel =>
    match tel.text with
    | some t => Except.ok { title := pyStrip t, link := link, published := pub,
                            published_ts := dt, source := url }
    | none => Except.error ()
  | none => Except.ok { title := "", link := link, published := pub,
                        published_ts := dt, source := url }

/-- Body of fetch_rss_feed after a successful XML parse (lines 33-74):
RSS 2.0 when a channel child exists, otherwise Atom. An exception anywhere
in the loop aborts the whole body (Except.error). -/
def parseFeed (url : String) (root : XmlElem) (limit : Nat) :
    Except Unit (List FeedItem) :=
  match findChild root "channel" with
  | some channel =>
    Except.ok (((findAll channel "item").take limit).map (parseRssItem url))
  | none =>
    ((findAll root (atomTag "entry")).take limit).mapM (parseAtomEntry url)

/-- Model of fetch_rss_feed (lines 28-77). The network fetch, HTTP status
check and ET.fromstring either produce a parsed root (some root) or fail
(none); the surrounding try/except turns every failure, including an
exception raised inside the parsing loop, into the empty list. -/
def fetch_rss_feed (url : String) (response : Option XmlElem)
    (limit : Nat := 6) : List FeedItem :=
  match response with
  | none => []
  | some root =>
    match parseFeed url root limit with
    | Except.ok items => items
    | Except.error _ => []

/-- First configured feed URL. -/
def urlA : String := "https://www.nasdaq.com/feed/rssoutbound?category=Investing"

/-- Second configured feed URL. -/
def urlB : String := "https://www.marketwatch.com/feeds/topstories"

/-- Third configured feed URL. -/
def urlC : String := "https://www.edweek.org/feeds/index.rss"

/-- The configured feed list of get_live_news, in source order. -/
def newsFeeds : List String := [urlA, urlB, urlC]

/-- Sort key of get_live_news: x.get("published_ts") or "". -/
def sortKey (x : FeedItem) : String := x.published_ts.getD ""

/-- Computable lexicographic less-or-equal on character lists, agreeing with
the codepoint string comparison Python uses on the sort keys. -/
def charListLe : List Char → List Char → Bool
  | [], _ => true
  | _ :: _, [] => false
  | a :: as, b :: bs =>
    if a < b then true
    else if b < a then false
    else charListLe as bs

/-- Boolean comparison realizing the stable descending sort
unique.sort(key=sort_key, reverse=True): a may precede b exactly when the
key of a is at least the key of b, so tied elements keep their order. -/
def keyGE (a b : FeedItem) : Bool := charListLe (sortKey b).data (sortKey a).data

/-- The deduplication loop of get_live_news (lines 96-104): one pass that
drops falsy links (None or empty) and links already seen, and otherwise
keeps the item, recording its link. -/
def dedupLoop (seen : List String) : List FeedItem → List FeedItem
  | [] => []
  | it :: rest =>
    match it.link with
    | none => dedupLoop seen rest
    | some l =>
      if l = "" then dedupLoop seen rest
      else if l ∈ seen then dedupLoop seen rest
      else it :: dedupLoop (l :: seen) rest

/-- Concatenation step of get_live_news (lines 91-93): every configured URL
is fetched and parsed with the overall limit as the per-feed cap, and the
results are concatenated in configured order. The network is modeled by the
responses oracle mapping a URL to its fetch-and-parse outcome. -/
def collectFeeds (responses : String → Option XmlElem) (limit : Nat) :
    List FeedItem :=
  (newsFeeds.map (fun u => fetch_rss_feed u (responses u) limit)).flatten

/-- Deduplicated collection of get_live_news. -/
def aggUnique (responses : String → Option XmlElem) (limit : Nat) :
    List FeedItem :=
  dedupLoop [] (collectFeeds responses limit)

/-- Sorted collection of get_live_news: the stable descending sort by the
published timestamp key. -/
def aggSorted (responses : String → Option XmlElem) (limit : Nat) :
    List FeedItem :=
  (aggUnique responses limit).mergeSort keyGE

/-- Model of the /api/news handler get_live_news (lines 79-112): collect,
deduplicate, sort descending by timestamp key, truncate to the limit, and
return the items together with their count. -/
def get_live_news (responses : String → Option XmlElem) (limit : Nat := 9) :
    List FeedItem × Nat :=
  let trimmed := (aggSorted responses limit).take limit
  (trimmed, trimmed.length)

/-! ### Concrete fixtures used by the claim scenarios -/

/-- Leaf element carrying only text. -/
def elemText (tag text : String) : XmlElem :=
  { tag := tag, attrs := [], text := some text, children := [] }

/-- RSS feed A of the spec scenario: one item with link x and an RFC-2822
pubDate. -/
def feedA : XmlElem :=
  { tag := "rss", attrs := [], text := none, children :=
    [{ tag := "channel", attrs := [], text := none, children :=
       [{ tag := "item", attrs := [], text := none, children :=
          [elemText "link" "x",
           elemText "pubDate" "Mon, 01 Jan 2024 00:00:00 GMT"] }] }] }

/-- The channel element of feed A. -/
def feedAChannel : XmlElem :=
  { tag := "channel", attrs := [], text := none, children :=
    [{ tag := "item", attrs := [], text := none, children :=
       [elemText "link" "x",
        elemText "pubDate" "Mon, 01 Jan 2024 00:00:00 GMT"] }] }

/-- Atom entry with an href link and an updated element. -/
def atomEntryOf (link updated : String) : XmlElem :=
  { tag := atomTag "entry", attrs := [], text := none, children :=
    [{ tag := atomTag "link", attrs := [("href", link)], text := none,
       children := [] },
     elemText (atomTag "updated") updated] }

/-- Atom feed B of the spec scenario: entries x and y with ISO-8601 updated
values. -/
def feedB : XmlElem :=
  { tag := atomTag "feed", attrs := [], text := none, children :=
    [atomEntryOf "x" "2024-01-02T00:00:00Z",
     atomEntryOf "y" "2024-01-03T00:00:00Z"] }

/-- Responses oracle of the spec scenario: feed A on the first configured
URL, feed B on the second, and a failed fetch for the third. -/
def scenarioResponses : String → Option XmlElem := fun u =>
  if u = urlA then some feedA
  else if u = urlB then some feedB
  else none

/-- The item feed A contributes for link x. -/
def itemAx : FeedItem :=
  { title := "", link := some "x",
    published := some "Mon, 01 Jan 2024 00:00:00 GMT",
    published_ts := some "2024-01-01T00:00:00+00:00", source := urlA }

/-- The item feed B contributes for link y; its ISO-8601 updated value does
not parse as an RFC-2822 date, so its timestamp is absent. -/
def itemBy : FeedItem :=
  { title := "", link := some "y",
    published := some "2024-01-03T00:00:00Z",
    published_ts := none, source := urlB }

/-- Atom entry whose title element is present but empty: ElementTree gives
it text None, and title_el.text.strip() raises AttributeError. -/
def entryEmptyTitle : XmlElem :=
  { tag := atomTag "entry", attrs := [], text := none, children :=
    [{ tag := atomTag "title", attrs := [], text := none, children := [] },
     { tag := atomTag "link", attrs := [("href", "a")], text := none,
       children := [] },
     elemText (atomTag "updated") "Mon, 01 Jan 2024 00:00:00 GMT"] }

/-- Atom feed with a perfectly ordinary first entry and a second entry whose
title element is empty. -/
def feedBadTitle : XmlElem :=
  { tag := atomTag "feed", attrs := [], text := none, children :=
    [atomEntryOf "b" "Mon, 01 Jan 2024 00:00:00 GMT",
     entryEmptyTitle] }

/-- RSS item whose pubDate text carries surrounding whitespace. -/
def rssItemWS : XmlElem :=
  { tag := "item", attrs := [], text := none, children :=
    [elemText "link" "z",
     elemText "pubDate" " Mon, 01 Jan 2024 00:00:00 GMT "] }

/-- RSS item with no child elements at all. -/
def bareItem : XmlElem :=
  { tag := "item", attrs := [], text := none, children := [] }

/-- Atom entry with no child elements at all. -/
def bareEntry : XmlElem :=
  { tag := atomTag "entry", attrs := [], text := none, children := [] }

/-- A small concrete item list exercising deduplication: two items share the
nonempty link x, one item has link y. -/
def demoList : List FeedItem :=
  [itemAx,
   { title := "", link := some "x", published := some "2024-01-02T00:00:00Z",
     published_ts := none, source := urlB },
   itemBy]

/-- RSS item carrying a present but textless title element. -/
def emptyTitleRssItem : XmlElem :=
  { tag := "item", attrs := [], text := none, children :=
    [{ tag := "title", attrs := [], text := none, children := [] },
     elemText "link" "w"] }

/-- The textless title element of emptyTitleRssItem. -/
def emptyTitleElem : XmlElem :=
  { tag := "title", attrs := [], text := none, children := [] }

/-- An Atom entry avoids the AttributeError exactly when its title element,
if present, has text. -/
def atomTitleOk (entry : XmlElem) : Bool :=
  match findChild entry (atomTag "title") with
  | some t => t.text.isSome
  | none => true

/-- The FeedItem an Atom entry yields when parsing it does not raise; equals
the Except.ok payload of parseAtomEntry whenever atomTitleOk holds. -/
def atomItemOf (url : String) (entry : XmlElem) : FeedItem :=
  let link : Option String :=
    match findChild entry (atomTag "link") with
    | some el => getAttr el "href"
    | none => some ""
  let pub : Option String :=
    match findChild entry (atomTag "updated") with
    | some el => el.text
    | none => some ""
  let dt : Option String :=
    match pub with
    | some p => if p = "" then none else parsedDateIso p
    | none => none
  { title :=
      match findChild entry (atomTag "title") with
      | some tel => pyStrip (tel.text.getD "")
      | none => ""
    link := link, published := pub, published_ts := dt, source := url }

/-! ### Helper lemmas -/

theorem parseAtomEntry_eq_ok (url : String) (entry : XmlElem)
    (h : atomTitleOk entry = true) :
    parseAtomEntry url entry = Except.ok (atomItemOf url entry) := by
  unfold atomTitleOk at h
  cases hft : findChild entry (atomTag "title") with
  | none => simp [parseAtomEntry, atomItemOf, hft]
  | some tel =>
    rw [hft] at h
    simp only [Option.isSome] at h
    cases htx : tel.text with
    | none => rw [htx] at h; simp at h
    | some t => simp [parseAtomEntry, atomItemOf, hft, htx]

theorem mapM_ok_of_forall {α β : Type} (f : α → Except Unit β) (g : α → β) :
    ∀ es : List α, (∀ e ∈ es, f e = Except.ok (g e)) →
      es.mapM f = Except.ok (es.map g) := by
  intro es
  induction es with
  | nil => intro _; rfl
  | cons e rest ih =>
    intro h
    rw [List.mapM_cons, h e (List.mem_cons_self _ _),
        ih (fun x hx => h x (List.mem_cons_of_mem _ hx))]
    rfl

theorem dedupLoop_mem (seen : List String) (l : List FeedItem) :
    ∀ x ∈ dedupLoop seen l,
      x ∈ l ∧ ∃ s, x.link = some s ∧ s ≠ "" ∧ s ∉ seen := by
  induction l generalizing seen with
  | nil => intro x hx; simp [dedupLoop] at hx
  | cons it rest ih =>
    intro x hx
    rw [dedupLoop] at hx
    cases hli : it.link with
    | none =>
      rw [hli] at hx
      rcases ih seen x hx with ⟨h1, s, hs⟩
      exact ⟨List.mem_cons_of_mem _ h1, s, hs⟩
    | some lk =>
      rw [hli] at hx
      replace hx : x ∈ (if lk = "" then dedupLoop seen rest
          else if lk ∈ seen then dedupLoop seen rest
          else it :: dedupLoop (lk :: seen) rest) := hx
      by_cases h0 : lk = ""
      · rw [if_pos h0] at hx
        rcases ih seen x hx with ⟨h1, s, hs⟩
        exact ⟨List.mem_cons_of_mem _ h1, s, hs⟩
      · rw [if_neg h0] at hx
        by_cases h1 : lk ∈ seen
        · rw [if_pos h1] at hx
          rcases ih seen x hx with ⟨h2, s, hs⟩
          exact ⟨List.mem_cons_of_mem _ h2, s, hs⟩
        · rw [if_neg h1] at hx
          rcases List.mem_cons.mp hx with rfl | hx2
          · exact ⟨List.mem_cons_self _ _, lk, hli, h0, h1⟩
          · rcases ih (lk :: seen) x hx2 with ⟨h2, s, hse, hne, hnm⟩
            exact ⟨List.mem_cons_of_mem _ h2, s, hse, hne,
                   fun hsm => hnm (List.mem_cons_of_mem _ hsm)⟩

theorem dedupLoop_pairwise (seen : List String) (l : List FeedItem) :
    (dedupLoop seen l).Pairwise (fun a b => a.link ≠ b.link) := by
  induction l generalizing seen with
  | nil => simp [dedupLoop]
  | cons it rest ih =>
    rw [dedupLoop]
    cases hli : it.link with
    | none => exact ih seen
    | some lk =>
      show List.Pairwise (fun a b => a.link ≠ b.link)
        (if lk = "" then dedupLoop seen rest
         else if lk ∈ seen then dedupLoop seen rest
         else it :: dedupLoop (lk :: seen) rest)
      by_cases h0 : lk = ""
      · rw [if_pos h0]; exact ih seen
      · rw [if_neg h0]
        by_cases h1 : lk ∈ seen
        · rw [if_pos h1]; exact ih seen
        · rw [if_neg h1]
          refine List.Pairwise.cons ?_ (ih (lk :: seen))
          intro y hy
          rcases (dedupLoop_mem (lk :: seen) rest y hy).2 with ⟨s, hs, _, hnm⟩
          rw [hli, hs]
          intro hcon
          injection hcon with hes
          exact hnm (hes ▸ List.mem_cons_self _ _)

theorem dedupLoop_filter (lk : String) (hlk : lk ≠ "") (l : List FeedItem) :
    ∀ seen : List String,
      (dedupLoop seen l).filter (fun x => x.link == some lk) =
        if lk ∈ seen then []
        else (l.find? (fun x => x.link == some lk)).toList := by
  induction l with
  | nil => intro seen; simp [dedupLoop]
  | cons it rest ih =>
    intro seen
    rw [dedupLoop]
    cases hli : it.link with
    | none =>
      rw [List.find?_cons_of_neg _ (by simp [hli])]
      exact ih seen
    | some l' =>
      show List.filter (fun x => x.link == some lk)
          (if l' = "" then dedupLoop seen rest
           else if l' ∈ seen then dedupLoop seen rest
           else it :: dedupLoop (l' :: seen) rest) =
        if lk ∈ seen then []
        else (List.find? (fun x => x.link == some lk) (it :: rest)).toList
      by_cases h0 : l' = ""
      · rw [if_pos h0]
        rw [List.find?_cons_of_neg _ (by subst h0; simp [hli]; exact fun h => hlk h.symm)]
        exact ih seen
      · rw [if_neg h0]
        by_cases h1 : l' ∈ seen
        · rw [if_pos h1]
          by_cases h2 : lk ∈ seen
          · rw [ih seen, if_pos h2, if_pos h2]
          · have hne : l' ≠ lk := fun he => h2 (he ▸ h1)
            rw [List.find?_cons_of_neg _ (by simp [hli]; exact hne)]
            exact ih seen
        · rw [if_neg h1]
          by_cases h3 : l' = lk
          · subst h3
            rw [if_neg h1]
            rw [List.filter_cons_of_pos (by simp [hli])]
            rw [List.find?_cons_of_pos _ (by simp [hli])]
            rw [ih (l' :: seen), if_pos (List.mem_cons_self _ _)]
            rfl
          · rw [List.filter_cons_of_neg (by simp [hli]; exact h3)]
            rw [List.find?_cons_of_neg _ (by simp [hli]; exact h3)]
            rw [ih (l' :: seen)]
            by_cases h4 : lk ∈ seen
            · rw [if_pos (List.mem_cons_of_mem _ h4), if_pos h4]
            · have h5 : lk ∉ l' :: seen := by
                intro hmem
                rcases List.mem_cons.mp hmem with he | he
                · exact h3 he.symm
                · exact h4 he
              rw [if_neg h5, if_neg h4]

theorem charListLe_iff :
    ∀ as bs : List Char, charListLe as bs = true ↔ ¬ List.lt bs as := by
  intro as
  induction as with
  | nil =>
    intro bs
    simp only [charListLe]
    constructor
    · intro _ h; cases h
    · intro _; trivial
  | cons a as ih =>
    intro bs
    cases bs with
    | nil =>
      simp only [charListLe]
      constructor
      · intro h; exact absurd h (by simp)
      · intro h; exact absurd (List.lt.nil a as) h
    | cons b bs =>
      by_cases hab : a < b
      · have hnba : ¬ b < a := lt_asymm hab
        simp only [charListLe, if_pos hab]
        constructor
        · intro _ h
          cases h with
          | head _ _ h2 => exact hnba h2
          | tail h1 h2 h3 => exact h2 hab
        · intro _; trivial
      · by_cases hba : b < a
        · simp only [charListLe, if_neg hab, if_pos hba]
          constructor
          · intro h; exact absurd h (by simp)
          · intro h; exact absurd (List.lt.head bs as hba) h
        · simp only [charListLe, if_neg hab, if_neg hba]
          rw [ih bs]
          constructor
          · intro h hl
            cases hl with
            | head _ _ h2 => exact hba h2
            | tail h1 h2 h3 => exact h h3
          · intro h hl
            exact h (List.lt.tail hba hab hl)

theorem keyGE_eq_true_iff (a b : FeedItem) :
    keyGE a b = true ↔ sortKey b ≤ sortKey a := by
  rw [keyGE, charListLe_iff, String.le_iff_toList_le, ← not_lt]
  exact not_congr (List.lt_iff_lex_lt _ _)

theorem keyGE_trans : ∀ a b c : FeedItem, keyGE a b → keyGE b c → keyGE a c := by
  intro a b c hab hbc
  rw [keyGE_eq_true_iff] at *
  exact le_trans hbc hab

theorem keyGE_total : ∀ a b : FeedItem, keyGE a b || keyGE b a := by
  intro a b
  simp only [Bool.or_eq_true, keyGE_eq_true_iff]
  exact le_total (sortKey b) (sortKey a)

theorem scenario_unique_eval :
    aggUnique scenarioResponses 9 = [itemAx, itemBy] := by decide

theorem scenario_output_eval :
    get_live_news scenarioResponses 9 = ([itemAx, itemBy], 2) := by
  have hsorted : List.Pairwise (fun a b => keyGE a b = true) [itemAx, itemBy] := by
    refine List.Pairwise.cons ?_ (List.pairwise_singleton _ _)
    intro y hy
    rw [List.mem_singleton.mp hy]
    decide
  have hs : aggSorted scenarioResponses 9 = [itemAx, itemBy] := by
    rw [aggSorted, scenario_unique_eval]
    exact List.mergeSort_of_sorted hsorted
  show ((aggSorted scenarioResponses 9).take 9,
        ((aggSorted scenarioResponses 9).take 9).length) = ([itemAx, itemBy], 2)
  rw [hs]
  rfl

/-! ### Claim theorems -/

/-- C1 counterexample: in the spec scenario (RSS feed A with item x dated
Mon, 01 Jan 2024 00:00:00 GMT; Atom feed B with entries x and y carrying
ISO-8601 updated values; limit 9) the aggregated output is NOT link y first
and link x second as the claim states. -/
theorem scenario_not_y_first :
    ¬ ((get_live_news scenarioResponses 9).1.map FeedItem.link
        = [some "y", some "x"]) := by
  rw [scenario_output_eval]
  decide

/-- C1 (amended): in the spec scenario the aggregation returns exactly two
items, link x first with timestamp 2024-01-01T00:00:00+00:00 and link y
second with an absent timestamp, because the ISO-8601 Atom updated values
fail RFC-2822 parsing and therefore sort last. -/
theorem scenario_x_then_y :
    (get_live_news scenarioResponses 9).1 = [itemAx, itemBy] ∧
    (get_live_news scenarioResponses 9).2 = 2 := by
  rw [scenario_output_eval]
  exact ⟨rfl, rfl⟩

/-- C2 counterexample: an Atom feed with a perfectly good first entry and a
second entry whose title element is present but empty (text None). The
AttributeError from title_el.text.strip() makes the whole feed contribute
zero items, so an empty optional element does cause an error that drops the
item and the other items of the feed. -/
theorem empty_title_drops_whole_feed :
    parseAtomEntry "u" entryEmptyTitle = Except.error () ∧
    (findAll feedBadTitle (atomTag "entry")).length = 2 ∧
    fetch_rss_feed urlB (some feedBadTitle) 6 = [] := by
  refine ⟨rfl, rfl, rfl⟩

/-- C2 (amended): a MISSING optional element yields the empty string for the
corresponding field and never drops the item: on the RSS path this also
holds for a present but textless element, while on the Atom path a missing
title, link, or updated yields the defaults shown here (a present but
textless Atom title instead aborts the whole feed, see the
counterexample). -/
theorem missing_optional_defaults_empty :
    ∀ (url : String) (item entry : XmlElem),
      (findChild item "title" = none → (parseRssItem url item).title = "") ∧
      (findChild item "link" = none → (parseRssItem url item).link = some "") ∧
      (findChild item "pubDate" = none →
        (parseRssItem url item).published = some "") ∧
      (∀ t, findChild item "title" = some t → t.text = none →
        (parseRssItem url item).title = "") ∧
      (findChild entry (atomTag "title") = none →
        parseAtomEntry url entry = Except.ok (atomItemOf url entry) ∧
        (atomItemOf url entry).title = "") ∧
      (findChild entry (atomTag "link") = none →
        (atomItemOf url entry).link = some "") ∧
      (findChild entry (atomTag "updated") = none →
        (atomItemOf url entry).published = some "") := by
  intro url item entry
  refine ⟨?_, ?_, ?_, ?_, ?_, ?_, ?_⟩
  · intro h; simp [parseRssItem, findtext, h, pyStrip]
  · intro h; simp [parseRssItem, findtext, h, pyStrip]
  · intro h; simp [parseRssItem, findtext, h, pyStrip]
  · intro t ht htx; simp [parseRssItem, findtext, ht, htx, pyStrip]
  · intro h
    refine ⟨parseAtomEntry_eq_ok url entry (by simp [atomTitleOk, h]), ?_⟩
    simp [atomItemOf, h]
  · intro h; simp [atomItemOf, h]
  · intro h; simp [atomItemOf, h]

/-- C2 witness: concrete instances of the amended claim on an RSS item with
no children, an RSS item with a textless title element, and an Atom entry
with no children. -/
theorem missing_optional_defaults_empty_witness :
    (parseRssItem "u" bareItem).title = "" ∧
    (parseRssItem "u" bareItem).link = some "" ∧
    (parseRssItem "u" bareItem).published = some "" ∧
    (parseRssItem "u" emptyTitleRssItem).title = "" ∧
    (parseAtomEntry "u" bareEntry = Except.ok (atomItemOf "u" bareEntry) ∧
      (atomItemOf "u" bareEntry).title = "") ∧
    (atomItemOf "u" bareEntry).link = some "" ∧
    (atomItemOf "u" bareEntry).published = some "" := by
  have h := missing_optional_defaults_empty "u" bareItem bareEntry
  have h2 := missing_optional_defaults_empty "u" emptyTitleRssItem bareEntry
  exact ⟨h.1 (by rfl), h.2.1 (by rfl), h.2.2.1 (by rfl),
         h2.2.2.2.1 emptyTitleElem (by rfl) (by rfl),
         h.2.2.2.2.1 (by rfl), h.2.2.2.2.2.1 (by rfl), h.2.2.2.2.2.2 (by rfl)⟩

/-- C3: every failure of the fetch-parse routine yields the empty list: a
failed fetch or XML parse (the none response), and any exception escaping
the parse loop (the error case), both produce [], and the function is total
so nothing propagates to the aggregator. -/
theorem fetch_failure_returns_empty :
    ∀ (url : String) (limit : Nat),
      fetch_rss_feed url none limit = [] ∧
      ∀ root : XmlElem, parseFeed url root limit = Except.error () →
        fetch_rss_feed url (some root) limit = [] := by
  intro url limit
  refine ⟨rfl, ?_⟩
  intro root h
  simp [fetch_rss_feed, h]

/-- C3 witness: the failure behavior at a concrete URL and the concrete feed
whose parse raises. -/
theorem fetch_failure_returns_empty_witness :
    fetch_rss_feed "u" none 6 = [] ∧
    fetch_rss_feed "u" (some feedBadTitle) 6 = [] :=
  ⟨(fetch_failure_returns_empty "u" 6).1,
   (fetch_failure_returns_empty "u" 6).2 feedBadTitle rfl⟩

/-- C4: deduplication keeps only items with nonempty links drawn from the
input, and for every nonempty link value the surviving occurrences are
exactly the first input item carrying that link (empty-string and duplicate
links are skipped, first occurrence wins). -/
theorem dedup_first_occurrence_wins :
    ∀ l : List FeedItem,
      (∀ x ∈ dedupLoop [] l, x ∈ l ∧ x.link ≠ none ∧ x.link ≠ some "") ∧
      (∀ lk : String, lk ≠ "" →
        (dedupLoop [] l).filter (fun x => x.link == some lk) =
          (l.find? (fun x => x.link == some lk)).toList) := by
  intro l
  constructor
  · intro x hx
    rcases dedupLoop_mem [] l x hx with ⟨h1, s, hs, hne, _⟩
    refine ⟨h1, ?_, ?_⟩
    · rw [hs]; simp
    · rw [hs]; simp [hne]
  · intro lk hlk
    simpa using dedupLoop_filter lk hlk l []

/-- C4 witness: on the concrete three-item list with links x, x, y only the
first x survives. -/
theorem dedup_first_occurrence_wins_witness :
    (itemAx ∈ demoList ∧ itemAx.link ≠ none ∧ itemAx.link ≠ some "") ∧
    (dedupLoop [] demoList).filter (fun x => x.link == some "x") =
      (demoList.find? (fun x => x.link == some "x")).toList :=
  ⟨(dedup_first_occurrence_wins demoList).1 itemAx (by decide),
   (dedup_first_occurrence_wins demoList).2 "x" (by decide)⟩

/-- C5: in the final aggregated output every adjacent pair is ordered by
descending timestamp key (absent timestamps count as the empty string and
hence come last), and the sort is stable: restricted to any fixed key value
the sorted collection equals the deduplicated collection. -/
theorem output_sorted_desc_stable :
    ∀ (responses : String → Option XmlElem) (limit : Nat),
      List.Pairwise (fun a b => sortKey b ≤ sortKey a)
        (get_live_news responses limit).1 ∧
      ∀ v : String,
        (aggSorted responses limit).filter (fun x => sortKey x == v) =
          (aggUnique responses limit).filter (fun x => sortKey x == v) := by
  intro r limit
  constructor
  · have hs : (aggSorted r limit).Pairwise (fun a b => keyGE a b) :=
      List.sorted_mergeSort keyGE_trans keyGE_total (aggUnique r limit)
    have hs2 : (aggSorted r limit).Pairwise (fun a b => sortKey b ≤ sortKey a) :=
      hs.imp (fun h => (keyGE_eq_true_iff _ _).mp h)
    exact List.Pairwise.sublist (List.take_sublist _ _) hs2
  · intro v
    have hall : ∀ x ∈ (aggUnique r limit).filter (fun x => sortKey x == v),
        sortKey x = v := by
      intro x hx
      simpa using (List.mem_filter.mp hx).2
    have htied : ((aggUnique r limit).filter (fun x => sortKey x == v)).Pairwise
        (fun a b => keyGE a b) := by
      apply List.pairwise_of_forall_mem_list
      intro a ha b hb
      have h1 := hall a ha
      have h2 := hall b hb
      rw [keyGE_eq_true_iff, h1, h2]
    have hsubl : List.Sublist
        ((aggUnique r limit).filter (fun x => sortKey x == v))
        (aggSorted r limit) :=
      List.sublist_mergeSort keyGE_trans keyGE_total htied (List.filter_sublist _)
    have hself : ((aggUnique r limit).filter (fun x => sortKey x == v)).filter
        (fun x => sortKey x == v) =
        (aggUnique r limit).filter (fun x => sortKey x == v) :=
      List.filter_eq_self.mpr (fun a ha => (List.mem_filter.mp ha).2)
    have h2 : List.Sublist
        ((aggUnique r limit).filter (fun x => sortKey x == v))
        ((aggSorted r limit).filter (fun x => sortKey x == v)) := by
      have := hsubl.filter (fun x => sortKey x == v)
      rwa [hself] at this
    have hperm : List.Perm
        ((aggSorted r limit).filter (fun x => sortKey x == v))
        ((aggUnique r limit).filter (fun x => sortKey x == v)) :=
      (List.mergeSort_perm (aggUnique r limit) keyGE).filter _
    exact (h2.eq_of_length hperm.length_eq.symm).symm

/-- C6: the aggregated items list and the reported count are bounded by the
requested limit, applied as the final truncation after dedup and sort. -/
theorem output_length_le_limit :
    ∀ (responses : String → Option XmlElem) (limit : Nat),
      (get_live_news responses limit).1.length ≤ limit ∧
      (get_live_news responses limit).2 ≤ limit := by
  intro r limit
  exact ⟨List.length_take_le limit (aggSorted r limit),
         List.length_take_le limit (aggSorted r limit)⟩

/-- C7 counterexample: an Atom feed with N = 2 entries parsed with k = 2
yields zero items rather than the first min(k, N) = 2 items in document
order, because the second entry carries a present but textless title
element. -/
theorem atom_empty_title_breaks_first_k :
    (findAll feedBadTitle (atomTag "entry")).length = 2 ∧
    parseFeed "u" feedBadTitle 2 = Except.error () ∧
    fetch_rss_feed "u" (some feedBadTitle) 2 = [] := by
  refine ⟨rfl, rfl, rfl⟩

/-- C7 (amended): for every well-formed feed and limit k the parser emits
exactly the images of the first min(k, N) item or entry elements in
document order, provided on the Atom path that none of those first k
entries carries a present but textless title element (such an entry makes
the parser yield the empty sequence instead, see the counterexample). -/
theorem parser_first_min_k_in_order :
    ∀ (url : String) (root : XmlElem) (k : Nat),
      (∀ ch, findChild root "channel" = some ch →
        parseFeed url root k =
          Except.ok (((findAll ch "item").take k).map (parseRssItem url)) ∧
        (((findAll ch "item").take k).map (parseRssItem url)).length =
          min k (findAll ch "item").length) ∧
      (findChild root "channel" = none →
       (∀ e ∈ (findAll root (atomTag "entry")).take k, atomTitleOk e = true) →
        parseFeed url root k =
          Except.ok (((findAll root (atomTag "entry")).take k).map
            (atomItemOf url)) ∧
        (((findAll root (atomTag "entry")).take k).map (atomItemOf url)).length =
          min k (findAll root (atomTag "entry")).length) := by
  intro url root k
  constructor
  · intro ch hch
    refine ⟨by simp [parseFeed, hch], by simp [List.length_take]⟩
  · intro hch hok
    refine ⟨?_, by simp [List.length_take]⟩
    simp only [parseFeed, hch]
    exact mapM_ok_of_forall _ _ _
      (fun e he => parseAtomEntry_eq_ok url e (hok e he))

/-- C7 witness: the RSS scenario feed and the Atom scenario feed parsed with
limit 9 produce exactly the converted document-order elements. -/
theorem parser_first_min_k_in_order_witness :
    parseFeed urlA feedA 9 =
      Except.ok (((findAll feedAChannel "item").take 9).map (parseRssItem urlA)) ∧
    parseFeed urlB feedB 9 =
      Except.ok (((findAll feedB (atomTag "entry")).take 9).map (atomItemOf urlB)) :=
  ⟨((parser_first_min_k_in_order urlA feedA 9).1 feedAChannel (by rfl)).1,
   ((parser_first_min_k_in_order urlB feedB 9).2 (by rfl) (by decide)).1⟩

/-- C8: every item the aggregation emits carries a nonempty link, and no two
emitted items share a link. -/
theorem output_links_nonempty_distinct :
    ∀ (responses : String → Option XmlElem) (limit : Nat),
      (∀ x ∈ (get_live_news responses limit).1,
        ∃ s, x.link = some s ∧ s ≠ "") ∧
      List.Pairwise (fun a b => a.link ≠ b.link)
        (get_live_news responses limit).1 := by
  intro r limit
  constructor
  · intro x hx
    simp only [get_live_news] at hx
    have h1 : x ∈ aggUnique r limit :=
      List.mem_mergeSort.mp ((List.take_sublist _ _).subset hx)
    rcases (dedupLoop_mem [] _ x h1).2 with ⟨s, hs, hne, _⟩
    exact ⟨s, hs, hne⟩
  · have hpu : (aggUnique r limit).Pairwise (fun a b => a.link ≠ b.link) :=
      dedupLoop_pairwise [] _
    have hsym : ∀ {x y : FeedItem}, x.link ≠ y.link → y.link ≠ x.link :=
      fun h he => h he.symm
    have hps : (aggSorted r limit).Pairwise (fun a b => a.link ≠ b.link) :=
      (List.Perm.pairwise_iff hsym (List.mergeSort_perm _ keyGE)).mpr hpu
    exact List.Pairwise.sublist (List.take_sublist _ _) hps

/-- C8 witness: in the concrete scenario the emitted item with link y has a
nonempty link. -/
theorem output_links_nonempty_distinct_witness :
    ∃ s, itemBy.link = some s ∧ s ≠ "" :=
  (output_links_nonempty_distinct scenarioResponses 9).1 itemBy
    (by simp [scenario_output_eval])

/-- C9 counterexample: the published field of an RSS item is NOT the source
text unmodified: surrounding whitespace in the pubDate text is stripped. -/
theorem published_is_stripped :
    findtext rssItemWS "pubDate" = some " Mon, 01 Jan 2024 00:00:00 GMT " ∧
    (parseRssItem "u" rssItemWS).published ≠ findtext rssItemWS "pubDate" := by
  exact ⟨by decide, by decide⟩

/-- C9 (amended): the published field equals the source date text with
surrounding whitespace trimmed on the RSS path (empty when pubDate is
missing), and the exact updated text on the Atom path (empty string when
the updated element is missing, None when it is present without text). -/
theorem published_matches_source_text :
    ∀ (url : String) (item entry : XmlElem),
      (parseRssItem url item).published =
        some (pyStrip ((findtext item "pubDate").getD "")) ∧
      (∀ it, parseAtomEntry url entry = Except.ok it →
        it.published =
          (findChild entry (atomTag "updated")).elim (some "")
            (fun el => el.text)) := by
  intro url item entry
  constructor
  · rfl
  · intro it h
    have hok : parseAtomEntry url entry = Except.ok (atomItemOf url entry) := by
      cases hft : findChild entry (atomTag "title") with
      | none => exact parseAtomEntry_eq_ok url entry (by simp [atomTitleOk, hft])
      | some tel =>
        cases htx : tel.text with
        | none =>
          have herr : parseAtomEntry url entry = Except.error () := by
            simp [parseAtomEntry, hft, htx]
          rw [herr] at h
          exact absurd h (by simp)
        | some t =>
          exact parseAtomEntry_eq_ok url entry (by simp [atomTitleOk, hft, htx])
    rw [hok] at h
    injection h with he
    subst he
    cases hfu : findChild entry (atomTag "updated") with
    | none => simp [atomItemOf, hfu]
    | some el => simp [atomItemOf, hfu]

/-- C9 witness: the amended statement at the whitespace-padded RSS item and
the scenario Atom entry for link y. -/
theorem published_matches_source_text_witness :
    (parseRssItem "u" rssItemWS).published =
      some (pyStrip ((findtext rssItemWS "pubDate").getD "")) ∧
    (atomItemOf "u" (atomEntryOf "y" "2024-01-03T00:00:00Z")).published =
      (findChild (atomEntryOf "y" "2024-01-03T00:00:00Z")
        (atomTag "updated")).elim (some "") (fun el => el.text) :=
  ⟨(published_matches_source_text "u" rssItemWS bareEntry).1,
   (published_matches_source_text "u" bareItem
      (atomEntryOf "y" "2024-01-03T00:00:00Z")).2
     (atomItemOf "u" (atomEntryOf "y" "2024-01-03T00:00:00Z")) (by rfl)⟩

/-- C10: aggregation only selects and reorders: every emitted item is,
field for field, an element of the concatenated per-feed parse results, and
hence comes unmodified from some configured feed. -/
theorem output_items_come_from_feeds :
    ∀ (responses : String → Option XmlElem) (limit : Nat) (x : FeedItem),
      x ∈ (get_live_news responses limit).1 →
        x ∈ collectFeeds responses limit ∧
        ∃ u, u ∈ newsFeeds ∧ x ∈ fetch_rss_feed u (responses u) limit := by
  intro r limit x hx
  simp only [get_live_news] at hx
  have h1 : x ∈ aggUnique r limit :=
    List.mem_mergeSort.mp ((List.take_sublist _ _).subset hx)
  have h3 : x ∈ collectFeeds r limit := (dedupLoop_mem [] _ x h1).1
  refine ⟨h3, ?_⟩
  have h4 := h3
  rw [collectFeeds] at h4
  rcases List.mem_flatten.mp h4 with ⟨s, hs, hxs⟩
  rcases List.mem_map.mp hs with ⟨u, hu, rfl⟩
  exact ⟨u, hu, hxs⟩

/-- C10 witness: in the concrete scenario the first emitted item is exactly
an element of the concatenated parse results. -/
theorem output_items_come_from_feeds_witness :
    itemAx ∈ collectFeeds scenarioResponses 9 ∧
    ∃ u, u ∈ newsFeeds ∧ itemAx ∈ fetch_rss_feed u (scenarioResponses u) 9 :=
  output_items_come_from_feeds scenarioResponses 9 itemAx
    (by simp [scenario_output_eval])

end FeedAgg
